import Mathlib

/-!
Shallow embedding of the `glimesh-bridge` relay (`src/main.go`), a single-file
Go program that relays chat messages between a Glimesh websocket session and a
Kilovolt key-value store.

Modelling conventions:
* Go structs become Lean structures with the same field layout.
* JSON values are modelled by the inductive `Json`; JSON numbers carry an `Int`
  because no claim depends on fractional numeric payloads.
* `jsoniter` unmarshalling is modelled by total decoding functions returning
  `Option` (`none` = unmarshal error).  Go's JSON decoding leaves a target
  unchanged when the source value is `null` or when an object key is absent,
  so decoders default to the Go zero value in those cases; for duplicate
  object keys the last occurrence wins, which `lookupField` reproduces.
* The key-value store is an association list of key/value pairs; `SetJSON`
  becomes `setKV`, `GetJSON` becomes `getKV`.  Whether a store write succeeds
  is an environment choice, passed in as a flag.
* `os.Exit`/`log.Fatal` become explicit terminal outcomes of step functions;
  a Go slice-bounds violation is modelled by `Option.none` (`goSliceFrom`).
* Go machine integers appear only as the channel id and the history-size flag;
  both stay far from 64-bit bounds in every claim, and are modelled by `Int`.
-/

/-- Go struct `ChatMessage.User` (anonymous struct in `main.go` lines 33-35). -/
structure ChatUser where
  username : String
deriving DecidableEq, Repr

/-- Go struct `ChatMessage` (`main.go` lines 31-36). -/
structure ChatMessage where
  message : String
  user : ChatUser
deriving DecidableEq, Repr

/-- Innermost payload wrapper of `ChatMessageResult` (`main.go` lines 40-42). -/
structure ChatData where
  chatMessage : ChatMessage
deriving DecidableEq, Repr

/-- Middle payload wrapper of `ChatMessageResult` (`main.go` lines 39-43). -/
structure ChatResult where
  data : ChatData
deriving DecidableEq, Repr

/-- Go struct `ChatMessageResult` (`main.go` lines 38-44). -/
structure ChatMessageResult where
  result : ChatResult
deriving DecidableEq, Repr

/-- Go zero value of `ChatMessage.User`. -/
def zeroUser : ChatUser := ⟨""⟩

/-- Go zero value of `ChatMessage`. -/
def zeroMsg : ChatMessage := ⟨"", zeroUser⟩

/-- Go zero value of `ChatMessageResult`. -/
def zeroCMR : ChatMessageResult := ⟨⟨⟨zeroMsg⟩⟩⟩

/-- JSON values, as decoded from a websocket text frame. -/
inductive Json where
  | null : Json
  | bool : Bool → Json
  | num : Int → Json
  | str : String → Json
  | arr : List Json → Json
  | obj : List (String × Json) → Json

/-- Last binding of key `k` in a JSON object's field list (Go JSON decoding
lets a later duplicate key overwrite an earlier one). -/
def lookupField (fs : List (String × Json)) (k : String) : Option Json :=
  (fs.reverse.find? (fun p => p.1 == k)).map (fun p => p.2)

/-- Follow a path of object keys inside a JSON value; `none` when some key on
the path is missing or an intermediate value is not an object. -/
def pathLookup (j : Json) : List String → Option Json
  | [] => some j
  | k :: rest =>
    match j with
    | .obj fs =>
      match lookupField fs k with
      | some v => pathLookup v rest
      | none => none
    | _ => none

/-- Decode a JSON value into a Go `*string` target (the `&msgType` /
`&msgSubType` slots of the payload slice, `main.go` lines 152-153,158):
JSON `null` sets the pointer to `nil`, a JSON string sets it, anything else is
a type error. -/
def decodePtrString : Json → Option (Option String)
  | .null => some none
  | .str s => some (some s)
  | _ => none

/-- Decode a JSON value into a Go `string` target whose current value is the
zero value `""`: `null` leaves it unchanged, a string overwrites it, anything
else is a type error. -/
def decodeGoString : Json → Option String
  | .null => some ""
  | .str s => some s
  | _ => none

/-- Decode the value of an object field `k` into a struct field with Go zero
value `dflt`: an absent key leaves the zero value in place. -/
def decodeField {α : Type} (fs : List (String × Json)) (k : String) (dflt : α)
    (dec : Json → Option α) : Option α :=
  match lookupField fs k with
  | none => some dflt
  | some v => dec v

/-- Decode into the `user` field of `ChatMessage` (tag `username`). -/
def decodeChatUser : Json → Option ChatUser
  | .null => some zeroUser
  | .obj fs => do
    let u ← decodeField fs "username" "" decodeGoString
    pure ⟨u⟩
  | _ => none

/-- Decode into `ChatMessage` (tags `message`, `user`). -/
def decodeChatMessage : Json → Option ChatMessage
  | .null => some zeroMsg
  | .obj fs => do
    let m ← decodeField fs "message" "" decodeGoString
    let u ← decodeField fs "user" zeroUser decodeChatUser
    pure ⟨m, u⟩
  | _ => none

/-- Decode into the `data` wrapper (tag `chatMessage`). -/
def decodeChatData : Json → Option ChatData
  | .null => some ⟨zeroMsg⟩
  | .obj fs => do
    let m ← decodeField fs "chatMessage" zeroMsg decodeChatMessage
    pure ⟨m⟩
  | _ => none

/-- Decode into the `result` wrapper (tag `data`). -/
def decodeChatResult : Json → Option ChatResult
  | .null => some ⟨⟨zeroMsg⟩⟩
  | .obj fs => do
    let d ← decodeField fs "data" ⟨zeroMsg⟩ decodeChatData
    pure ⟨d⟩
  | _ => none

/-- Decode into `ChatMessageResult` (tag `result`), the 5th slot of the
payload slice (`main.go` line 156,158). -/
def decodeChatMessageResult : Json → Option ChatMessageResult
  | .null => some zeroCMR
  | .obj fs => do
    let r ← decodeField fs "result" ⟨⟨zeroMsg⟩⟩ decodeChatResult
    pure ⟨r⟩
  | _ => none

/-- The five local variables filled in by unmarshalling one inbound text
frame (`main.go` lines 152-158). -/
structure DecodedTuple where
  msgType : Option String
  msgSubType : Option String
  subId : String
  subType : String
  result : ChatMessageResult

/-- Model of `jsoniter.Unmarshal(byt, &payload)` (`main.go` lines 158-159)
where `payload` is the 5-slot pointer slice: the top level must be a JSON
array; element `i` is decoded into slot `i` (a missing element leaves the
slot at its zero value; surplus elements are appended generically by Go and
are irrelevant here); any element type error fails the whole unmarshal. -/
def decodeFrame : Json → Option DecodedTuple
  | .arr elems => do
    let mt ← match elems.get? 0 with | none => some none | some v => decodePtrString v
    let mst ← match elems.get? 1 with | none => some none | some v => decodePtrString v
    let sid ← match elems.get? 2 with | none => some "" | some v => decodeGoString v
    let sty ← match elems.get? 3 with | none => some "" | some v => decodeGoString v
    let res ← match elems.get? 4 with | none => some zeroCMR | some v => decodeChatMessageResult v
    pure ⟨mt, mst, sid, sty, res⟩
  | _ => none

/-- Websocket message type tag (`websocket.MessageText` vs binary). -/
inductive GoMessageType where
  | text : GoMessageType
  | binary : GoMessageType
deriving DecidableEq, Repr

/-- Result of one `c.Read(ctx)` call in the receive goroutine: either a
transport error (the flag records whether it was `io.EOF`, i.e. normal
closure) or a frame.  A text frame carries its parsed JSON value; the decode
functions above model the subsequent unmarshal. -/
inductive ReadResult where
  | readError : Bool → ReadResult
  | frame : GoMessageType → Json → ReadResult

/-- Observable outcome of one iteration of the receive goroutine. -/
inductive StepOutcome where
  | fatalExit : StepOutcome
  | continueNoYield : StepOutcome
  | yieldMessage : ChatMessage → StepOutcome
deriving DecidableEq, Repr

/-- One iteration of the websocket receive goroutine (`main.go` lines
141-170): a read error is fatal in both branches (`log.Fatal` exits the
process, for `io.EOF` and any other error alike); a non-text frame is
ignored; a text frame that fails to unmarshal is logged and skipped; a
successfully decoded tuple is forwarded on the `wsmsg` channel exactly when
both leading tags decoded to `nil`. -/
def receiveStep : ReadResult → StepOutcome
  | .readError _ => .fatalExit
  | .frame mtyp j =>
    match mtyp with
    | .binary => .continueNoYield
    | .text =>
      match decodeFrame j with
      | none => .continueNoYield
      | some t =>
        match t.msgType, t.msgSubType with
        | none, none => .yieldMessage t.result.result.data.chatMessage
        | _, _ => .continueNoYield

/-- Structured values written into the Kilovolt store by this program: the
"latest chat event" key holds one `ChatMessage`, the history key holds a
`ChatMessage` list (the JSON forms `SetJSON` serializes). -/
inductive KVValue where
  | msg : ChatMessage → KVValue
  | history : List ChatMessage → KVValue
deriving DecidableEq, Repr

/-- The externally visible state of the key-value store: an association list
from key to last written structured value. -/
def Store : Type := List (String × KVValue)

instance : DecidableEq Store := by
  unfold Store
  infer_instance

/-- Model of a successful `client.SetJSON(k, v)`: overwrite the binding of
`k`, or append it if absent. -/
def setKV : Store → String → KVValue → Store
  | [], k, v => [(k, v)]
  | (k', v') :: rest, k, v =>
    if k' = k then (k, v) :: rest else (k', v') :: setKV rest k v

/-- Model of `client.GetJSON(k, ...)`: the current binding of `k`. -/
def getKV : Store → String → Option KVValue
  | [], _ => none
  | (k', v') :: rest, k => if k' = k then some v' else getKV rest k

/-- Immutable startup configuration (`main.go` lines 77-84): key namespace
(flag `-kv-prefix`... the `-prefix` flag, default "glimesh/"), the Glimesh
channel id (flag `-channel-id`) and the history capacity
(flag `-chat-history`, default 6, a Go `int`). -/
structure Config where
  pfx : String
  channelID : Int
  chatHistorySize : Int

/-- Key `<pfx>ev/chat-message` (`main.go` line 110). -/
def chatEventKey (cfg : Config) : String := cfg.pfx ++ "ev/chat-message"

/-- Key `<pfx>@send-chat-message` (`main.go` line 111). -/
def chatRPCKey (cfg : Config) : String := cfg.pfx ++ "@send-chat-message"

/-- Key `<pfx>chat-history` (`main.go` line 112). -/
def chatHistoryKey (cfg : Config) : String := cfg.pfx ++ "chat-history"

/-- Characters accepted by Go's `unicode.IsSpace` within Latin-1 (space, tab,
newline, vertical tab, form feed, carriage return, NEL, NBSP).  Messages in
the claims use only ASCII whitespace; wider Unicode space classes are outside
the modelled alphabet. -/
def isGoSpace (c : Char) : Bool :=
  c = ' ' || c = '\t' || c = '\n' || c = '\x0b' || c = '\x0c' || c = '\r' ||
  c = '\u0085' || c = ' '

/-- Character-level model of `strings.Replace(s, "\"", "\\\"", -1)`
(`main.go` line 200): every double quote becomes backslash-quote. -/
def escQ : List Char → List Char
  | [] => []
  | c :: rest => if c = '"' then '\\' :: '"' :: escQ rest else c :: escQ rest

/-- String-level quote escaping (`strings.Replace` with `n = -1`). -/
def escapeQuotes (s : String) : String := ⟨escQ s.data⟩

/-- Character-level model of `strings.TrimSpace`: drop leading and trailing
whitespace. -/
def goTrim (l : List Char) : List Char :=
  List.rdropWhile isGoSpace (l.dropWhile isGoSpace)

/-- String-level `strings.TrimSpace`. -/
def goTrimSpace (s : String) : String := ⟨goTrim s.data⟩

/-- The sanitized outgoing message text (`main.go` line 200):
`strings.TrimSpace(strings.Replace(kv.Value, "\"", "\\\"", -1))`. -/
def escapeMessage (raw : String) : String := goTrimSpace (escapeQuotes raw)

/-- Every double quote in the character list is immediately preceded by a
backslash (no bare `"` remains). -/
def quotesEscaped : List Char → Bool
  | [] => true
  | [c] => if c = '"' then false else true
  | c :: d :: rest =>
    if c = '\\' && d = '"' then quotesEscaped rest
    else if c = '"' then false
    else quotesEscaped (d :: rest)

/-- The GraphQL subscription query text of `main.go` line 136, with the
channel id substituted for `%d`. -/
def subscriptionQuery (cid : Int) : String :=
  "subscription\x7b chatMessage(channelId: " ++ toString cid ++
  ") \x7b user \x7b username \x7d message \x7d \x7d"

/-- The GraphQL mutation payload of `main.go` line 202, with the channel id
and the sanitized message substituted. -/
def mutationQuery (cid : Int) (message : String) : String :=
  "mutation \x7bcreateChatMessage(channelId: " ++ toString cid ++
  ", message: \x7bmessage: \"" ++ message ++ "\"\x7d) \x7b message \x7d\x7d"

/-- The four kinds of frame this program ever writes to the websocket. -/
inductive OutboundFrame where
  | join : OutboundFrame
  | subscribe : Int → OutboundFrame
  | heartbeat : OutboundFrame
  | send : Int → String → OutboundFrame

/-- JSON form of each outbound frame, transcribed from the literals written
in `main.go`: join (line 135), subscribe-document (line 136), heartbeat
(line 182), send-document (line 203, the marshalled `GQLQuery` envelope).
The `send` constructor takes the already sanitized message text. -/
def frameJson : OutboundFrame → Json
  | .join =>
    .arr [.str "1", .str "1", .str "__absinthe__:control", .str "phx_join", .obj []]
  | .subscribe cid =>
    .arr [.str "1", .str "2", .str "__absinthe__:control", .str "doc",
      .obj [("query", .str (subscriptionQuery cid)), ("variables", .obj [])]]
  | .heartbeat =>
    .arr [.str "1", .str "3", .str "phoenix", .str "heartbeat", .obj []]
  | .send cid message =>
    .arr [.str "1", .str "4", .str "__absinthe__:control", .str "doc",
      .obj [("query", .str (mutationQuery cid message)), ("variables", .obj [])]]

/-- The topic string (third element) of a 5-element frame. -/
def frameTopic : Json → Option String
  | .arr [_, _, .str t, _, _] => some t
  | _ => none

/-- The embedded query string of a document frame's payload (fifth element,
field `query`). -/
def frameQuery : Json → Option String
  | .arr [_, _, _, _, .obj fs] =>
    match lookupField fs "query" with
    | some (.str q) => some q
    | _ => none
  | _ => none

/-- Reaction of the relay loop to a store-subscription RPC event (`main.go`
lines 197-203, success path): sanitize the raw payload and wrap it in the
send-document frame that is written to the websocket. -/
def handleRPC (cid : Int) (raw : String) : Json :=
  frameJson (.send cid (escapeMessage raw))

/-- Whether each of the two store writes inside the chat-message reaction
succeeds (`SetJSON` on the event key, then on the history key). -/
structure WriteFlags where
  latestOk : Bool
  historyOk : Bool
deriving DecidableEq, Repr

/-- Mutable state owned by the relay loop: the in-memory `chatHistory` slice
and the observable store contents. -/
structure RelayState where
  chatHistory : List ChatMessage
  store : Store
deriving DecidableEq

/-- Go slice expression `l[low:]`: defined when `0 ≤ low ≤ len(l)`, otherwise
a slice-bounds-out-of-range runtime panic (`none`).  (Go's real upper bound
is `cap(l)`; for the freshly appended history slice the claims exercise,
capacity equals length.) -/
def goSliceFrom (l : List ChatMessage) (low : Int) : Option (List ChatMessage) :=
  if 0 ≤ low ∧ low ≤ (l.length : Int) then some (l.drop low.toNat) else none

/-- History truncation (`main.go` lines 190-192):
`if len(chatHistory) > *chatHistorySize { chatHistory = chatHistory[len(chatHistory)-*chatHistorySize:] }`. -/
def truncateHistory (l : List ChatMessage) (size : Int) : Option (List ChatMessage) :=
  if (l.length : Int) > size then goSliceFrom l ((l.length : Int) - size) else some l

/-- Reaction of the relay loop to one inbound `ChatMessage` (`main.go` lines
183-196): write the message to the event key (failure only logged), append it
to the in-memory history, truncate, then write the history key (failure only
logged).  `none` models the truncation panic; otherwise the loop continues
with the new state. -/
def handleChatMessage (cfg : Config) (st : RelayState) (msg : ChatMessage)
    (fl : WriteFlags) : Option RelayState :=
  let store1 := if fl.latestOk then setKV st.store (chatEventKey cfg) (.msg msg) else st.store
  let hist1 := st.chatHistory ++ [msg]
  match truncateHistory hist1 cfg.chatHistorySize with
  | none => none
  | some hist2 =>
    let store2 := if fl.historyOk then setKV store1 (chatHistoryKey cfg) (.history hist2) else store1
    some ⟨hist2, store2⟩

/-- Model of the helper `check(err, format)` (`main.go` lines 51-57): on a
non-nil error, print `format + ": " + err + "\n"` to standard error and call
`os.Exit(1)`. -/
inductive ProcOutcome where
  | proceed : ProcOutcome
  | exited : Nat → String → ProcOutcome
deriving DecidableEq, Repr

/-- The `check` helper itself; the error, when present, is its message. -/
def check (err : Option String) (format : String) : ProcOutcome :=
  match err with
  | none => .proceed
  | some e => .exited 1 (format ++ ": " ++ e ++ "\n")

/-- One arrival at the relay loop's select (`main.go` lines 179-215): a
heartbeat ticker tick (with the result of the heartbeat write), an inbound
chat message from `wsmsg` (with the fate of the two store writes), or an RPC
value from the subscribed key (with the fate of the websocket write; the
marshal step cannot fail on these values). -/
inductive LoopEvent where
  | tick : Option String → LoopEvent
  | chatMsg : ChatMessage → WriteFlags → LoopEvent
  | rpc : String → Option String → LoopEvent

/-- Result of dispatching one loop event: continue with a new state having
written the listed frames to the websocket, exit the process, or panic. -/
inductive StepResult where
  | continued : RelayState → List Json → StepResult
  | exited : Nat → String → StepResult
  | panicked : StepResult

/-- The relay loop body (`main.go` lines 180-215), one select dispatch. -/
def loopStep (cfg : Config) (st : RelayState) : LoopEvent → StepResult
  | .tick werr =>
    match check werr "Could not send heartbeat" with
    | .proceed => .continued st [frameJson .heartbeat]
    | .exited c m => .exited c m
  | .chatMsg msg fl =>
    match handleChatMessage cfg st msg fl with
    | none => .panicked
    | some st' => .continued st' []
  | .rpc raw sendErr =>
    match sendErr with
    | some _ => .continued st []
    | none => .continued st [handleRPC cfg.channelID raw]

/-- Startup initialization of the chat history (`main.go` lines 113-119):
`getResult` is the outcome of `GetJSON` on the history key (`none` = key
absent or value corrupt).  On failure the history becomes empty and is
written back at once (the write's own error is discarded by the source). -/
def initChatHistory (cfg : Config) (st : Store)
    (getResult : Option (List ChatMessage)) : List ChatMessage × Store :=
  match getResult with
  | some h => (h, st)
  | none => ([], setKV st (chatHistoryKey cfg) (.history []))

/-- All store writes succeeding. -/
def allOk : WriteFlags := ⟨true, true⟩

/-- Process a whole arrival sequence of inbound chat messages with all store
writes succeeding (iterated `wsmsg` dispatch of the relay loop). -/
def runMessages (cfg : Config) (st : RelayState) : List ChatMessage → Option RelayState
  | [] => some st
  | m :: rest => do
    let st' ← handleChatMessage cfg st m allOk
    runMessages cfg st' rest

/-- The last `n` elements of a list (all of it when it is shorter). -/
def lastN {α : Type} (n : Nat) (l : List α) : List α := l.drop (l.length - n)

lemma getKV_setKV (s : Store) (k k' : String) (v : KVValue) :
    getKV (setKV s k v) k' = if k' = k then some v else getKV s k' := by
  induction s with
  | nil =>
    by_cases h : k' = k
    · subst h; simp [setKV, getKV]
    · simp [setKV, getKV, h, Ne.symm h]
  | cons p rest ih =>
    obtain ⟨k₀, v₀⟩ := p
    by_cases h0 : k₀ = k
    · subst h0
      by_cases h : k' = k₀
      · subst h; simp [setKV, getKV]
      · simp [setKV, getKV, h, Ne.symm h]
    · by_cases h : k' = k₀
      · subst h
        simp [setKV, getKV, h0, Ne.symm h0]
      · simp [setKV, getKV, h0, h, Ne.symm h, ih]

lemma chatEventKey_ne_chatHistoryKey (cfg : Config) :
    chatEventKey cfg ≠ chatHistoryKey cfg := by
  intro h
  have h2 := congrArg String.data h
  simp only [chatEventKey, chatHistoryKey, String.data_append] at h2
  have h3 := congrArg List.length h2
  simp at h3

lemma lastN_length_le {α : Type} (n : Nat) (l : List α) : (lastN n l).length ≤ n := by
  simp only [lastN, List.length_drop]
  omega

lemma lastN_of_length_le {α : Type} (n : Nat) (l : List α) (h : l.length ≤ n) :
    lastN n l = l := by
  simp only [lastN]
  rw [Nat.sub_eq_zero_of_le h, List.drop_zero]

lemma drop_append_general {α : Type} (x y : List α) (k : Nat) :
    (x ++ y).drop k = x.drop k ++ y.drop (k - x.length) := by
  by_cases h : k ≤ x.length
  · rw [List.drop_append_of_le_length h, Nat.sub_eq_zero_of_le h, List.drop_zero]
  · push_neg at h
    have hx : x.drop k = [] := List.drop_eq_nil_of_le (by omega)
    rw [hx, List.nil_append]
    conv_lhs => rw [show k = x.length + (k - x.length) by omega]
    rw [List.drop_append]

lemma lastN_lastN_append {α : Type} (n : Nat) (a b : List α) :
    lastN n (lastN n a ++ b) = lastN n (a ++ b) := by
  simp only [lastN, List.length_append, List.length_drop]
  rw [drop_append_general, drop_append_general, List.drop_drop]
  simp only [List.length_drop]
  congr 1
  · congr 1
    omega
  · congr 1
    omega

lemma truncateHistory_nat (C : Nat) (l : List ChatMessage) :
    truncateHistory l (C : Int) = some (lastN C l) := by
  by_cases h : (C : Int) < (l.length : Int)
  · have h0 : (0 : Int) ≤ (l.length : Int) - C := by omega
    have h1 : (l.length : Int) - C ≤ (l.length : Int) := by omega
    simp only [truncateHistory, gt_iff_lt, if_pos h, goSliceFrom,
      if_pos (And.intro h0 h1)]
    congr 1
    simp only [lastN]
    congr 1
    omega
  · have hle : l.length ≤ C := by omega
    simp only [truncateHistory, gt_iff_lt, if_neg h]
    rw [lastN_of_length_le C l hle]

lemma handleChatMessage_eq (cfg : Config) (st : RelayState) (msg : ChatMessage)
    (fl : WriteFlags) (C : Nat) (hsz : cfg.chatHistorySize = (C : Int)) :
    handleChatMessage cfg st msg fl =
      some ⟨lastN C (st.chatHistory ++ [msg]),
        (fun s1 => if fl.historyOk
          then setKV s1 (chatHistoryKey cfg) (.history (lastN C (st.chatHistory ++ [msg])))
          else s1)
        (if fl.latestOk then setKV st.store (chatEventKey cfg) (.msg msg) else st.store)⟩ := by
  simp only [handleChatMessage, hsz, truncateHistory_nat]

lemma getLast?_drop_of_ne_nil {α : Type} (l : List α) (n : Nat) (h : l.drop n ≠ []) :
    (l.drop n).getLast? = l.getLast? := by
  induction l generalizing n with
  | nil => simp at h
  | cons a t ih =>
    cases n with
    | zero => rfl
    | succ m =>
      simp only [List.drop_succ_cons] at h ⊢
      rw [ih m h]
      cases ht : t with
      | nil => rw [ht] at h; simp at h
      | cons b u => simp [List.getLast?_cons_cons]

lemma lastN_getLast?_concat {α : Type} (n : Nat) (hn : 1 ≤ n) (l : List α) (m : α) :
    (lastN n (l ++ [m])).getLast? = some m := by
  have hne : lastN n (l ++ [m]) ≠ [] := by
    have : (lastN n (l ++ [m])).length = (l.length + 1) - ((l.length + 1) - n) := by
      simp [lastN, List.length_drop]
    intro hc
    rw [hc] at this
    simp only [List.length_nil] at this
    omega
  simp only [lastN] at hne ⊢
  rw [getLast?_drop_of_ne_nil _ _ hne]
  simp

lemma handleChatMessage_allOk (cfg : Config) (st : RelayState) (msg : ChatMessage)
    (C : Nat) (hsz : cfg.chatHistorySize = (C : Int)) :
    handleChatMessage cfg st msg allOk =
      some ⟨lastN C (st.chatHistory ++ [msg]),
        setKV (setKV st.store (chatEventKey cfg) (.msg msg)) (chatHistoryKey cfg)
          (.history (lastN C (st.chatHistory ++ [msg])))⟩ := by
  rw [handleChatMessage_eq cfg st msg allOk C hsz]
  simp [allOk]

lemma runMessages_ok (cfg : Config) (C : Nat) (hsz : cfg.chatHistorySize = (C : Int))
    (msgs : List ChatMessage) :
    ∀ st : RelayState, msgs ≠ [] →
      ∃ fin, runMessages cfg st msgs = some fin ∧
        fin.chatHistory = lastN C (st.chatHistory ++ msgs) ∧
        getKV fin.store (chatHistoryKey cfg) = some (KVValue.history fin.chatHistory) ∧
        ∀ lm, msgs.getLast? = some lm →
          getKV fin.store (chatEventKey cfg) = some (KVValue.msg lm) := by
  induction msgs with
  | nil => intro st h; exact absurd rfl h
  | cons m rest ih =>
    intro st _
    have hstep := handleChatMessage_allOk cfg st m C hsz
    by_cases hre : rest = []
    · subst hre
      refine ⟨⟨lastN C (st.chatHistory ++ [m]),
        setKV (setKV st.store (chatEventKey cfg) (.msg m)) (chatHistoryKey cfg)
          (.history (lastN C (st.chatHistory ++ [m])))⟩, ?_, rfl, ?_, ?_⟩
      · simp [runMessages, hstep]
      · show getKV (setKV _ (chatHistoryKey cfg) _) (chatHistoryKey cfg) = _
        rw [getKV_setKV, if_pos rfl]
      · intro lm hlm
        simp only [List.getLast?_singleton, Option.some.injEq] at hlm
        subst hlm
        show getKV (setKV (setKV _ (chatEventKey cfg) _) (chatHistoryKey cfg) _)
          (chatEventKey cfg) = _
        rw [getKV_setKV, if_neg (chatEventKey_ne_chatHistoryKey cfg), getKV_setKV, if_pos rfl]
    · obtain ⟨fin, hrun, hhist, hhk, hek⟩ :=
        ih (⟨lastN C (st.chatHistory ++ [m]),
          setKV (setKV st.store (chatEventKey cfg) (.msg m)) (chatHistoryKey cfg)
            (.history (lastN C (st.chatHistory ++ [m])))⟩) hre
      refine ⟨fin, ?_, ?_, hhk, ?_⟩
      · show runMessages cfg st (m :: rest) = some fin
        simp only [runMessages, hstep, Option.bind_eq_bind, Option.some_bind]
        exact hrun
      · rw [hhist]
        show lastN C (lastN C (st.chatHistory ++ [m]) ++ rest) = _
        rw [lastN_lastN_append]
        congr 1
        simp
      · intro lm hlm
        cases rest with
        | nil => exact absurd rfl hre
        | cons r2 rtl =>
          rw [List.getLast?_cons_cons] at hlm
          exact hek lm hlm

lemma runMessages_append (cfg : Config) (a b : List ChatMessage) :
    ∀ st : RelayState, runMessages cfg st (a ++ b) =
      (runMessages cfg st a).bind (fun st' => runMessages cfg st' b) := by
  induction a with
  | nil => intro st; simp [runMessages]
  | cons m rest ih =>
    intro st
    show runMessages cfg st (m :: (rest ++ b)) = _
    simp only [runMessages, Option.bind_eq_bind]
    cases handleChatMessage cfg st m allOk with
    | none => simp
    | some st' => simp [ih st']

/-- C1: starting from an empty history with capacity `C ≥ 1`, processing a
sequence of `N > C` inbound chat messages (all store writes succeeding)
leaves exactly the last `C` messages, in arrival order, as both the
in-memory and the persisted history; after every individual message the
persisted history's length is at most `C`, the history key holds exactly the
current history, and the latest-chat-event key holds exactly the one message
just received. -/
theorem relay_history_sliding_window (cfg : Config) (C : Nat)
    (hsz : cfg.chatHistorySize = (C : Int)) (hC : 1 ≤ C)
    (msgs : List ChatMessage) (st0 : Store) (hN : C < msgs.length) :
    ∃ fin, runMessages cfg ⟨[], st0⟩ msgs = some fin ∧
      fin.chatHistory = lastN C msgs ∧
      getKV fin.store (chatHistoryKey cfg) = some (KVValue.history (lastN C msgs)) ∧
      ∀ pre m post, msgs = pre ++ m :: post →
        ∃ mid, runMessages cfg ⟨[], st0⟩ (pre ++ [m]) = some mid ∧
          mid.chatHistory.length ≤ C ∧
          getKV mid.store (chatHistoryKey cfg) = some (KVValue.history mid.chatHistory) ∧
          getKV mid.store (chatEventKey cfg) = some (KVValue.msg m) := by
  have hne : msgs ≠ [] := by
    intro h
    rw [h] at hN
    simp at hN
  obtain ⟨fin, hrun, hhist, hhk, _⟩ := runMessages_ok cfg C hsz msgs ⟨[], st0⟩ hne
  have hnil : (⟨[], st0⟩ : RelayState).chatHistory ++ msgs = msgs := by simp
  rw [hnil] at hhist
  refine ⟨fin, hrun, hhist, by rw [← hhist]; exact hhk, ?_⟩
  intro pre m post hsplit
  obtain ⟨mid, hrunm, hhistm, hhkm, hekm⟩ :=
    runMessages_ok cfg C hsz (pre ++ [m]) ⟨[], st0⟩ (by simp)
  refine ⟨mid, hrunm, ?_, hhkm, hekm m (by simp)⟩
  rw [hhistm]
  exact lastN_length_le C _

/-- Sample configuration with capacity 2 for concrete checks. -/
def cfgEx : Config := ⟨"glimesh/", 1234, (2 : Int)⟩

/-- Sample chat messages for concrete checks. -/
def msgA : ChatMessage := ⟨"A", ⟨"alice"⟩⟩

def msgB : ChatMessage := ⟨"B", ⟨"bob"⟩⟩

def msgC : ChatMessage := ⟨"C", ⟨"carol"⟩⟩

/-- Witness for C1 at capacity 2 with the three-message scenario A, B, C,
together with the concrete persisted histories [A], [A,B], [B,C] after each
step. -/
theorem relay_history_sliding_window_witness :
    (∃ fin, runMessages cfgEx ⟨[], []⟩ [msgA, msgB, msgC] = some fin ∧
      fin.chatHistory = lastN 2 [msgA, msgB, msgC] ∧
      getKV fin.store (chatHistoryKey cfgEx) =
        some (KVValue.history (lastN 2 [msgA, msgB, msgC])) ∧
      ∀ pre m post, [msgA, msgB, msgC] = pre ++ m :: post →
        ∃ mid, runMessages cfgEx ⟨[], []⟩ (pre ++ [m]) = some mid ∧
          mid.chatHistory.length ≤ 2 ∧
          getKV mid.store (chatHistoryKey cfgEx) = some (KVValue.history mid.chatHistory) ∧
          getKV mid.store (chatEventKey cfgEx) = some (KVValue.msg m)) ∧
    runMessages cfgEx ⟨[], []⟩ [msgA] =
      some ⟨[msgA], [("glimesh/ev/chat-message", .msg msgA),
        ("glimesh/chat-history", .history [msgA])]⟩ ∧
    runMessages cfgEx ⟨[], []⟩ [msgA, msgB] =
      some ⟨[msgA, msgB], [("glimesh/ev/chat-message", .msg msgB),
        ("glimesh/chat-history", .history [msgA, msgB])]⟩ ∧
    runMessages cfgEx ⟨[], []⟩ [msgA, msgB, msgC] =
      some ⟨[msgB, msgC], [("glimesh/ev/chat-message", .msg msgC),
        ("glimesh/chat-history", .history [msgB, msgC])]⟩ :=
  ⟨relay_history_sliding_window cfgEx 2 (by decide) (by decide) [msgA, msgB, msgC] []
    (by decide), by decide, by decide, by decide⟩

/-- C5: a failed heartbeat write on a ticker tick makes the relay loop exit
the process with status 1 and the message `Could not send heartbeat: <err>`
on standard error; the loop does not continue and no retry happens. -/
theorem heartbeat_failure_fatal (cfg : Config) (st : RelayState) (e : String) :
    loopStep cfg st (.tick (some e)) =
      .exited 1 ("Could not send heartbeat: " ++ e ++ "\n") ∧
    ∀ (st' : RelayState) (out : List Json),
      loopStep cfg st (.tick (some e)) ≠ .continued st' out := by
  refine ⟨rfl, ?_⟩
  intro st' out h
  simp [loopStep, check] at h

/-- C8: when the startup read of the history key fails (key absent or value
corrupt), the relay initializes an empty history and the empty history is
already present under the history key in the resulting store, before any
chat message is processed. -/
theorem startup_history_init (cfg : Config) (st : Store) :
    (initChatHistory cfg st none).1 = [] ∧
    getKV (initChatHistory cfg st none).2 (chatHistoryKey cfg) =
      some (KVValue.history []) := by
  refine ⟨rfl, ?_⟩
  show getKV (setKV st (chatHistoryKey cfg) (KVValue.history [])) (chatHistoryKey cfg) = _
  rw [getKV_setKV, if_pos rfl]

/-- C9: with a configured capacity strictly below zero, processing the very
first inbound chat message reaches the history truncation with a slice lower
bound exceeding the slice length, a slice-bounds-out-of-range panic; with any
capacity at least zero the truncation slice is always well-defined. -/
theorem negative_capacity_slice_panic (cfg : Config) (hneg : cfg.chatHistorySize < 0)
    (st0 : Store) (msg : ChatMessage) (fl : WriteFlags) :
    handleChatMessage cfg ⟨[], st0⟩ msg fl = none ∧
    goSliceFrom [msg] ((1 : Int) - cfg.chatHistorySize) = none ∧
    ∀ (size : Int) (l : List ChatMessage), 0 ≤ size →
      (truncateHistory l size).isSome = true := by
  refine ⟨?_, ?_, ?_⟩
  · simp only [handleChatMessage]
    have h1 : (([] ++ [msg] : List ChatMessage).length : Int) > cfg.chatHistorySize := by
      simp
      omega
    simp only [truncateHistory, gt_iff_lt] at *
    rw [if_pos h1]
    have h2 : ¬((0 : Int) ≤ (([] ++ [msg] : List ChatMessage).length : Int) -
        cfg.chatHistorySize ∧ (([] ++ [msg] : List ChatMessage).length : Int) -
        cfg.chatHistorySize ≤ (([] ++ [msg] : List ChatMessage).length : Int)) := by
      simp
      omega
    rw [goSliceFrom, if_neg h2]
  · have h2 : ¬((0 : Int) ≤ (1 : Int) - cfg.chatHistorySize ∧
        (1 : Int) - cfg.chatHistorySize ≤ (([msg] : List ChatMessage).length : Int)) := by
      simp
      omega
    rw [goSliceFrom, if_neg h2]
  · intro size l hsize
    by_cases h : (l.length : Int) > size
    · have h0 : (0 : Int) ≤ (l.length : Int) - size := by omega
      have h1 : (l.length : Int) - size ≤ (l.length : Int) := by omega
      simp [truncateHistory, goSliceFrom, h, h0, h1]
    · simp [truncateHistory, h]

/-- Witness for C9 at capacity -1: the first message panics, and capacity 0
is safe. -/
theorem negative_capacity_slice_panic_witness :
    handleChatMessage ⟨"glimesh/", 1234, (-1 : Int)⟩ ⟨[], []⟩ msgA allOk = none ∧
    (truncateHistory [msgA] 0).isSome = true :=
  ⟨(negative_capacity_slice_panic ⟨"glimesh/", 1234, (-1 : Int)⟩ (by decide) [] msgA
      allOk).1,
    (negative_capacity_slice_panic ⟨"glimesh/", 1234, (-1 : Int)⟩ (by decide) [] msgA
      allOk).2.2 0 [msgA] (by decide)⟩

/-- C7: within one chat-message reaction, a failed write of the latest-chat-
event key does not stop the reaction — the message is still appended to the
in-memory history (with truncation) and, when the history write succeeds, the
updated history is still persisted; a failed history write likewise only
skips that write; in every case the loop continues with the same new
in-memory history, and a failed latest write is never compensated later (the
event key keeps its old value). -/
theorem store_write_failure_recovered (cfg : Config) (st : RelayState)
    (msg : ChatMessage) (C : Nat) (hsz : cfg.chatHistorySize = (C : Int))
    (fl : WriteFlags) :
    ∃ st', handleChatMessage cfg st msg fl = some st' ∧
      st'.chatHistory = lastN C (st.chatHistory ++ [msg]) ∧
      (fl.historyOk = true →
        getKV st'.store (chatHistoryKey cfg) =
          some (KVValue.history (lastN C (st.chatHistory ++ [msg])))) ∧
      (fl.latestOk = false →
        getKV st'.store (chatEventKey cfg) = getKV st.store (chatEventKey cfg)) := by
  refine ⟨_, handleChatMessage_eq cfg st msg fl C hsz, rfl, ?_, ?_⟩
  · intro hh
    simp only [hh, if_true]
    rw [getKV_setKV, if_pos rfl]
  · intro hl
    simp only [hl, Bool.false_eq_true, if_false]
    cases hh : fl.historyOk with
    | false => simp
    | true =>
      simp only [if_true]
      rw [getKV_setKV, if_neg (chatEventKey_ne_chatHistoryKey cfg)]

/-- Witness for C7: latest write fails, history write succeeds, starting from
a store that still holds message A under the event key. -/
theorem store_write_failure_recovered_witness :
    ∃ st', handleChatMessage cfgEx
        ⟨[msgA], [("glimesh/ev/chat-message", KVValue.msg msgA)]⟩ msgB
        ⟨false, true⟩ = some st' ∧
      st'.chatHistory = lastN 2 ([msgA] ++ [msgB]) ∧
      ((⟨false, true⟩ : WriteFlags).historyOk = true →
        getKV st'.store (chatHistoryKey cfgEx) =
          some (KVValue.history (lastN 2 ([msgA] ++ [msgB])))) ∧
      ((⟨false, true⟩ : WriteFlags).latestOk = false →
        getKV st'.store (chatEventKey cfgEx) =
          getKV [("glimesh/ev/chat-message", KVValue.msg msgA)] (chatEventKey cfgEx)) :=
  store_write_failure_recovered cfgEx
    ⟨[msgA], [("glimesh/ev/chat-message", KVValue.msg msgA)]⟩ msgB 2 (by decide)
    ⟨false, true⟩

/-- C6: in the websocket receive loop, any transport read error — normal
closure (`io.EOF`) included — terminates the process, while a text frame
that fails to unmarshal is merely skipped and the loop keeps reading. -/
theorem receive_loop_error_handling :
    (∀ isEOF : Bool, receiveStep (.readError isEOF) = .fatalExit) ∧
    (∀ j : Json, decodeFrame j = none →
      receiveStep (.frame .text j) = .continueNoYield) := by
  refine ⟨fun _ => rfl, ?_⟩
  intro j h
  simp [receiveStep, h]

/-- Witness for C6: a closed transport is fatal; a non-array text frame fails
to decode and is skipped. -/
theorem receive_loop_error_handling_witness :
    receiveStep (.readError true) = .fatalExit ∧
    decodeFrame (.str "ok") = none ∧
    receiveStep (.frame .text (.str "ok")) = .continueNoYield :=
  ⟨receive_loop_error_handling.1 true, rfl,
    receive_loop_error_handling.2 (.str "ok") rfl⟩

lemma escQ_append (a b : List Char) : escQ (a ++ b) = escQ a ++ escQ b := by
  induction a with
  | nil => rfl
  | cons c rest ih =>
    by_cases hq : c = '"'
    · subst hq; simp [escQ, ih]
    · simp [escQ, hq, ih]

lemma escQ_head_ne_quote (l : List Char) : (escQ l).head? ≠ some '"' := by
  cases l with
  | nil => simp [escQ]
  | cons c rest =>
    by_cases hq : c = '"'
    · subst hq
      simp [escQ]
    · simp [escQ, hq]

lemma dropWhile_escQ (l : List Char) :
    (escQ l).dropWhile isGoSpace = escQ (l.dropWhile isGoSpace) := by
  induction l with
  | nil => rfl
  | cons c rest ih =>
    by_cases hq : c = '"'
    · subst hq
      show List.dropWhile isGoSpace ('\\' :: '"' :: escQ rest) =
        escQ (List.dropWhile isGoSpace ('"' :: rest))
      rw [List.dropWhile_cons_of_neg (show ¬ isGoSpace '\\' = true by decide),
        List.dropWhile_cons_of_neg (show ¬ isGoSpace '"' = true by decide)]
      rfl
    · simp only [escQ, if_neg hq]
      by_cases hs : isGoSpace c
      · rw [List.dropWhile_cons_of_pos hs, List.dropWhile_cons_of_pos hs, ih]
      · rw [List.dropWhile_cons_of_neg hs, List.dropWhile_cons_of_neg hs]
        simp [escQ, hq]

lemma rdropWhile_escQ (l : List Char) :
    List.rdropWhile isGoSpace (escQ l) = escQ (List.rdropWhile isGoSpace l) := by
  induction l using List.reverseRecOn with
  | nil => rfl
  | append_singleton ys c ih =>
    rw [escQ_append]
    by_cases hs : isGoSpace c
    · have hq : ¬ c = '"' := by
        intro h
        rw [h] at hs
        exact absurd hs (by decide)
      have h1 : escQ [c] = [c] := by simp [escQ, hq]
      rw [h1, List.rdropWhile_concat_pos isGoSpace (escQ ys) c hs,
        List.rdropWhile_concat_pos isGoSpace ys c hs, ih]
    · by_cases hq : c = '"'
      · subst hq
        have h1 : escQ ['"'] = ['\\', '"'] := by simp [escQ]
        rw [h1, show escQ ys ++ ['\\', '"'] = (escQ ys ++ ['\\']) ++ ['"'] by simp,
          List.rdropWhile_concat_neg isGoSpace (escQ ys ++ ['\\']) '"' (by decide),
          List.rdropWhile_concat_neg isGoSpace ys '"' hs, escQ_append, h1]
        simp
      · have h1 : escQ [c] = [c] := by simp [escQ, hq]
        rw [h1, List.rdropWhile_concat_neg isGoSpace (escQ ys) c hs,
          List.rdropWhile_concat_neg isGoSpace ys c hs, escQ_append, h1]

lemma goTrim_escQ (l : List Char) : goTrim (escQ l) = escQ (goTrim l) := by
  simp only [goTrim, dropWhile_escQ, rdropWhile_escQ]

lemma quotesEscaped_escQ (l : List Char) : quotesEscaped (escQ l) = true := by
  induction l with
  | nil => rfl
  | cons c rest ih =>
    by_cases hq : c = '"'
    · subst hq
      simp only [escQ, if_pos rfl]
      show quotesEscaped ('\\' :: '"' :: escQ rest) = true
      simpa [quotesEscaped] using ih
    · simp only [escQ, if_neg hq]
      cases he : escQ rest with
      | nil => simp [quotesEscaped, hq]
      | cons d t =>
        have hd : d ≠ '"' := by
          have := escQ_head_ne_quote rest
          rw [he] at this
          simp at this
          exact this
        rw [show quotesEscaped (c :: d :: t) =
          (if c = '\\' && d = '"' then quotesEscaped t
           else if c = '"' then false else quotesEscaped (d :: t)) from rfl]
        rw [if_neg (by simp [hd]), if_neg hq, ← he]
        exact ih

lemma head?_goTrim (l : List Char) (c : Char) (h : (goTrim l).head? = some c) :
    isGoSpace c = false := by
  have hpre := List.rdropWhile_prefix isGoSpace (l.dropWhile isGoSpace)
  simp only [goTrim] at h
  obtain ⟨t, ht⟩ := hpre
  cases hr : List.rdropWhile isGoSpace (l.dropWhile isGoSpace) with
  | nil => rw [hr] at h; simp at h
  | cons a t2 =>
    rw [hr] at h ht
    simp only [List.head?_cons, Option.some.injEq] at h
    have hx : (l.dropWhile isGoSpace).head? = some c := by
      rw [← ht, ← h]
      simp
    have := List.head?_dropWhile_not isGoSpace l
    rw [hx] at this
    simpa using this

lemma getLast?_goTrim (l : List Char) (c : Char) (h : (goTrim l).getLast? = some c) :
    isGoSpace c = false := by
  simp only [goTrim] at h
  have hne : List.rdropWhile isGoSpace (l.dropWhile isGoSpace) ≠ [] := by
    intro hc
    rw [hc] at h
    simp at h
  rw [List.getLast?_eq_getLast _ hne] at h
  have hlast := List.rdropWhile_last_not isGoSpace (l.dropWhile isGoSpace) hne
  simp only [Option.some.injEq] at h
  rw [h] at hlast
  simpa using hlast

/-- C3: the message text embedded in the forwarded send-document frame is
exactly the raw request payload with every double quote escaped to
backslash-quote and leading/trailing whitespace removed (the two operations
commute, so either reading of the claim holds); no unescaped quote remains
and the embedded text neither starts nor ends with whitespace; in particular
the raw text `say "hi"` embeds as `say \"hi\"`. -/
theorem outgoing_message_escaping (cid : Int) (raw : String) :
    frameQuery (handleRPC cid raw) = some (mutationQuery cid (escapeMessage raw)) ∧
    escapeMessage raw = goTrimSpace (escapeQuotes raw) ∧
    escapeMessage raw = escapeQuotes (goTrimSpace raw) ∧
    quotesEscaped (escapeMessage raw).data = true ∧
    (∀ ch : Char, (escapeMessage raw).data.head? = some ch → isGoSpace ch = false) ∧
    (∀ ch : Char, (escapeMessage raw).data.getLast? = some ch → isGoSpace ch = false) ∧
    escapeMessage "say \"hi\"" = "say \\\"hi\\\"" := by
  refine ⟨?_, rfl, ?_, ?_, ?_, ?_, ?_⟩
  · rfl
  · show goTrimSpace (escapeQuotes raw) = escapeQuotes (goTrimSpace raw)
    have h1 : goTrimSpace (escapeQuotes raw) = ⟨goTrim (escQ raw.data)⟩ := rfl
    have h2 : escapeQuotes (goTrimSpace raw) = ⟨escQ (goTrim raw.data)⟩ := rfl
    rw [h1, h2, goTrim_escQ]
  · have h1 : (escapeMessage raw).data = goTrim (escQ raw.data) := rfl
    rw [h1, goTrim_escQ]
    exact quotesEscaped_escQ _
  · intro ch hch
    have h1 : (escapeMessage raw).data = goTrim (escQ raw.data) := rfl
    rw [h1] at hch
    exact head?_goTrim _ _ hch
  · intro ch hch
    have h1 : (escapeMessage raw).data = goTrim (escQ raw.data) := rfl
    rw [h1] at hch
    exact getLast?_goTrim _ _ hch
  · rfl

/-- Witness for C3 on the concrete payload with surrounding whitespace. -/
theorem outgoing_message_escaping_witness :
    escapeMessage " say \"hi\" " = "say \\\"hi\\\"" ∧
    quotesEscaped (escapeMessage " say \"hi\" ").data = true ∧
    isGoSpace 's' = false :=
  ⟨by decide, (outgoing_message_escaping 1234 " say \"hi\" ").2.2.2.1,
    (outgoing_message_escaping 1234 " say \"hi\" ").2.2.2.2.1 's' (by decide)⟩

/-- The event string (fourth element) of a 5-element frame. -/
def frameEvent : Json → Option String
  | .arr [_, _, _, .str e, _] => some e
  | _ => none

/-- The payload (fifth element) of a 5-element frame. -/
def framePayload : Json → Option Json
  | .arr [_, _, _, _, p] => some p
  | _ => none

/-- C4 counterexample: the join frame's topic string is
`__absinthe__:control` (`main.go` line 135), not `control` as the claim
states. -/
theorem join_topic_not_control :
    frameTopic (frameJson .join) = some "__absinthe__:control" ∧
    frameTopic (frameJson .join) ≠ some "control" :=
  ⟨rfl, by decide⟩

/-- C4 (amended): every outbound frame is a 5-element ordered array
[reference-id-1, reference-id-2 or join-marker, topic, event, payload], and
the frame kinds are exactly: join with topic `__absinthe__:control`, event
`phx_join` and empty payload; subscribe-document with topic
`__absinthe__:control`, event `doc` and the subscription query parameterized
by channel id; heartbeat with topic `phoenix`, event `heartbeat` and empty
payload; send-document with topic `__absinthe__:control`, event `doc` and
the mutation parameterized by channel id and the escaped message text. -/
theorem outbound_frames_shape :
    (∀ f : OutboundFrame, ∃ r1 : String, ∃ r2 payload : Json, ∃ topic ev : String,
      frameJson f = .arr [.str r1, r2, .str topic, .str ev, payload]) ∧
    frameTopic (frameJson .join) = some "__absinthe__:control" ∧
    frameEvent (frameJson .join) = some "phx_join" ∧
    framePayload (frameJson .join) = some (.obj []) ∧
    frameTopic (frameJson .heartbeat) = some "phoenix" ∧
    frameEvent (frameJson .heartbeat) = some "heartbeat" ∧
    framePayload (frameJson .heartbeat) = some (.obj []) ∧
    (∀ cid : Int,
      frameTopic (frameJson (.subscribe cid)) = some "__absinthe__:control" ∧
      frameEvent (frameJson (.subscribe cid)) = some "doc" ∧
      frameQuery (frameJson (.subscribe cid)) = some (subscriptionQuery cid)) ∧
    (∀ (cid : Int) (m : String),
      frameTopic (frameJson (.send cid m)) = some "__absinthe__:control" ∧
      frameEvent (frameJson (.send cid m)) = some "doc" ∧
      frameQuery (frameJson (.send cid m)) = some (mutationQuery cid m)) := by
  refine ⟨?_, rfl, rfl, rfl, rfl, rfl, rfl, fun cid => ⟨rfl, rfl, rfl⟩,
    fun cid m => ⟨rfl, rfl, rfl⟩⟩
  intro f
  cases f with
  | join => exact ⟨_, _, _, _, _, rfl⟩
  | subscribe cid => exact ⟨_, _, _, _, _, rfl⟩
  | heartbeat => exact ⟨_, _, _, _, _, rfl⟩
  | send cid m => exact ⟨_, _, _, _, _, rfl⟩

lemma decodeFrame_five (a b c d e : Json) (t : DecodedTuple)
    (h : decodeFrame (.arr [a, b, c, d, e]) = some t) :
    decodePtrString a = some t.msgType ∧ decodePtrString b = some t.msgSubType ∧
    decodeChatMessageResult e = some t.result := by
  simp only [decodeFrame, List.get?_cons_zero, List.get?_cons_succ,
    Option.bind_eq_bind] at h
  cases ha : decodePtrString a with
  | none => rw [ha] at h; simp at h
  | some mt =>
    rw [ha] at h
    simp only [Option.some_bind] at h
    cases hb : decodePtrString b with
    | none => rw [hb] at h; simp at h
    | some mst =>
      rw [hb] at h
      simp only [Option.some_bind] at h
      cases hc : decodeGoString c with
      | none => rw [hc] at h; simp at h
      | some sid =>
        rw [hc] at h
        simp only [Option.some_bind] at h
        cases hd : decodeGoString d with
        | none => rw [hd] at h; simp at h
        | some sty =>
          rw [hd] at h
          simp only [Option.some_bind] at h
          cases he : decodeChatMessageResult e with
          | none => rw [he] at h; simp at h
          | some res =>
            rw [he] at h
            simp only [Option.some_bind, Option.pure_def, Option.some.injEq] at h
            subst h
            exact ⟨rfl, rfl, rfl⟩

/-- C2: an inbound 5-element text frame whose first two tuple elements are
both present (non-null) never produces a `ChatMessage` — the receive loop
skips it, so nothing reaches the relay loop and no store write occurs. -/
theorem control_frames_filtered (a b c d e : Json) (ha : a ≠ .null)
    (hb : b ≠ .null) :
    receiveStep (.frame .text (.arr [a, b, c, d, e])) = .continueNoYield := by
  cases hdec : decodeFrame (.arr [a, b, c, d, e]) with
  | none => simp [receiveStep, hdec]
  | some t =>
    obtain ⟨hpa, _, _⟩ := decodeFrame_five a b c d e t hdec
    have hmt : ∃ s, t.msgType = some s := by
      cases a with
      | null => exact absurd rfl ha
      | str s =>
        refine ⟨s, ?_⟩
        simp only [decodePtrString, Option.some.injEq] at hpa
        exact hpa.symm
      | bool v => simp [decodePtrString] at hpa
      | num v => simp [decodePtrString] at hpa
      | arr v => simp [decodePtrString] at hpa
      | obj v => simp [decodePtrString] at hpa
    obtain ⟨s, hs⟩ := hmt
    simp [receiveStep, hdec, hs]

/-- Witness for C2: a protocol-control frame (a Phoenix reply) with both
leading reference tags present is filtered out. -/
theorem control_frames_filtered_witness :
    receiveStep (.frame .text (.arr [.str "1", .str "2", .str "x",
      .str "phx_reply", .obj []])) = .continueNoYield :=
  control_frames_filtered (.str "1") (.str "2") (.str "x") (.str "phx_reply")
    (.obj []) (by simp) (by simp)

lemma decodeChatData_zero (e : Json) (r : ChatData) (h : decodeChatData e = some r)
    (hp : pathLookup e ["chatMessage"] = none) : r = ⟨zeroMsg⟩ := by
  cases e with
  | null =>
    simp only [decodeChatData, Option.some.injEq] at h
    exact h.symm
  | obj fs =>
    cases hl : lookupField fs "chatMessage" with
    | none =>
      have h2 : decodeChatData (.obj fs) = some ⟨zeroMsg⟩ := by
        simp [decodeChatData, decodeField, hl]
      rw [h2] at h
      simp only [Option.some.injEq] at h
      exact h.symm
    | some v =>
      simp [pathLookup, hl] at hp
  | bool v => simp [decodeChatData] at h
  | num v => simp [decodeChatData] at h
  | str v => simp [decodeChatData] at h
  | arr v => simp [decodeChatData] at h

lemma decodeChatResult_zero (e : Json) (r : ChatResult)
    (h : decodeChatResult e = some r)
    (hp : pathLookup e ["data", "chatMessage"] = none) : r = ⟨⟨zeroMsg⟩⟩ := by
  cases e with
  | null =>
    simp only [decodeChatResult, Option.some.injEq] at h
    exact h.symm
  | obj fs =>
    cases hl : lookupField fs "data" with
    | none =>
      have h2 : decodeChatResult (.obj fs) = some ⟨⟨zeroMsg⟩⟩ := by
        simp [decodeChatResult, decodeField, hl]
      rw [h2] at h
      simp only [Option.some.injEq] at h
      exact h.symm
    | some v =>
      have hp2 : pathLookup v ["chatMessage"] = none := by
        simpa [pathLookup, hl] using hp
      cases hd : decodeChatData v with
      | none =>
        have h2 : decodeChatResult (.obj fs) = none := by
          simp [decodeChatResult, decodeField, hl, hd]
        rw [h2] at h
        exact absurd h (by simp)
      | some dta =>
        have h2 : decodeChatResult (.obj fs) = some ⟨dta⟩ := by
          simp [decodeChatResult, decodeField, hl, hd]
        rw [h2] at h
        simp only [Option.some.injEq] at h
        rw [← h, decodeChatData_zero v dta hd hp2]
  | bool v => simp [decodeChatResult] at h
  | num v => simp [decodeChatResult] at h
  | str v => simp [decodeChatResult] at h
  | arr v => simp [decodeChatResult] at h

lemma decodeChatMessageResult_zero (e : Json) (r : ChatMessageResult)
    (h : decodeChatMessageResult e = some r)
    (hp : pathLookup e ["result", "data", "chatMessage"] = none) : r = zeroCMR := by
  cases e with
  | null =>
    simp only [decodeChatMessageResult, Option.some.injEq] at h
    exact h.symm
  | obj fs =>
    cases hl : lookupField fs "result" with
    | none =>
      have h2 : decodeChatMessageResult (.obj fs) = some zeroCMR := by
        simp [decodeChatMessageResult, decodeField, hl, zeroCMR]
      rw [h2] at h
      simp only [Option.some.injEq] at h
      exact h.symm
    | some v =>
      have hp2 : pathLookup v ["data", "chatMessage"] = none := by
        simpa [pathLookup, hl] using hp
      cases hd : decodeChatResult v with
      | none =>
        have h2 : decodeChatMessageResult (.obj fs) = none := by
          simp [decodeChatMessageResult, decodeField, hl, hd]
        rw [h2] at h
        exact absurd h (by simp)
      | some res =>
        have h2 : decodeChatMessageResult (.obj fs) = some ⟨res⟩ := by
          simp [decodeChatMessageResult, decodeField, hl, hd]
        rw [h2] at h
        simp only [Option.some.injEq] at h
        rw [← h]
        show ChatMessageResult.mk res = zeroCMR
        rw [decodeChatResult_zero v res hd hp2]
        rfl
  | bool v => simp [decodeChatMessageResult] at h
  | num v => simp [decodeChatMessageResult] at h
  | str v => simp [decodeChatMessageResult] at h
  | arr v => simp [decodeChatMessageResult] at h

/-- C10: a text frame that decodes as a 5-element tuple with both leading
tags null but whose 5th element has no nested `result.data.chatMessage`
payload still yields a zero-valued `ChatMessage` (empty message, empty
username); the relay loop then publishes that zero message to the
latest-chat-event key and appends it to the persisted history — a missing
payload is not a decode failure. -/
theorem missing_payload_zero_message (c d e : Json) (t : DecodedTuple)
    (hdec : decodeFrame (.arr [.null, .null, c, d, e]) = some t)
    (hpath : pathLookup e ["result", "data", "chatMessage"] = none) :
    receiveStep (.frame .text (.arr [.null, .null, c, d, e])) =
      .yieldMessage zeroMsg ∧
    ∀ (cfg : Config) (st : RelayState) (C : Nat),
      cfg.chatHistorySize = (C : Int) → 1 ≤ C →
      ∃ st', handleChatMessage cfg st zeroMsg allOk = some st' ∧
        getKV st'.store (chatEventKey cfg) = some (KVValue.msg zeroMsg) ∧
        st'.chatHistory = lastN C (st.chatHistory ++ [zeroMsg]) ∧
        st'.chatHistory.getLast? = some zeroMsg ∧
        getKV st'.store (chatHistoryKey cfg) =
          some (KVValue.history st'.chatHistory) := by
  obtain ⟨hpa, hpb, he⟩ := decodeFrame_five _ _ _ _ _ t hdec
  have hmt : t.msgType = none := by
    simp only [decodePtrString, Option.some.injEq] at hpa
    exact hpa.symm
  have hmst : t.msgSubType = none := by
    simp only [decodePtrString, Option.some.injEq] at hpb
    exact hpb.symm
  have hres : t.result = zeroCMR := decodeChatMessageResult_zero e t.result he hpath
  constructor
  · simp [receiveStep, hdec, hmt, hmst, hres, zeroCMR]
  · intro cfg st C hsz hC
    refine ⟨_, handleChatMessage_allOk cfg st zeroMsg C hsz, ?_, rfl, ?_, ?_⟩
    · show getKV (setKV (setKV _ (chatEventKey cfg) _) (chatHistoryKey cfg) _)
        (chatEventKey cfg) = _
      rw [getKV_setKV, if_neg (chatEventKey_ne_chatHistoryKey cfg), getKV_setKV,
        if_pos rfl]
    · exact lastN_getLast?_concat C hC _ _
    · show getKV (setKV _ (chatHistoryKey cfg) _) (chatHistoryKey cfg) = _
      rw [getKV_setKV, if_pos rfl]

/-- Witness for C10: a data-push frame whose 5th element is an empty object
yields the zero message, which is then published and appended at capacity 2
from an empty state. -/
theorem missing_payload_zero_message_witness :
    receiveStep (.frame .text (.arr [.null, .null, .str "1", .str "subscription:data",
      .obj []])) = .yieldMessage zeroMsg ∧
    ∃ st', handleChatMessage cfgEx ⟨[], []⟩ zeroMsg allOk = some st' ∧
      getKV st'.store (chatEventKey cfgEx) = some (KVValue.msg zeroMsg) ∧
      st'.chatHistory = lastN 2 (([] : List ChatMessage) ++ [zeroMsg]) ∧
      st'.chatHistory.getLast? = some zeroMsg ∧
      getKV st'.store (chatHistoryKey cfgEx) =
        some (KVValue.history st'.chatHistory) :=
  ⟨(missing_payload_zero_message (.str "1") (.str "subscription:data") (.obj [])
      ⟨none, none, "1", "subscription:data", zeroCMR⟩ rfl rfl).1,
    (missing_payload_zero_message (.str "1") (.str "subscription:data") (.obj [])
      ⟨none, none, "1", "subscription:data", zeroCMR⟩ rfl rfl).2 cfgEx ⟨[], []⟩ 2
      (by decide) (by decide)⟩
